import Mathlib

/-!
# Traffic counter (`Traffic Counter/window/http_request.c`)

A shallow embedding of the request-counting probe: the shared `LONG` counter
`g_total_requests`, the reporter loop `reporter_thread`, the start-up sequence of
`main` and its accept loop.  Calls into the operating system are recorded as events
of a trace; the values the operating system returns are taken from an explicit
environment (one record per start-up, one record per loop iteration).
-/

namespace TrafficCounter

/-! ## `LONG` arithmetic and the interlocked primitives -/

/-- Smallest value of the 32-bit signed `LONG`. -/
def LONG_MIN : Int := -2147483648

/-- Largest value of the 32-bit signed `LONG`. -/
def LONG_MAX : Int := 2147483647

/-- Reduction of an integer to the 32-bit two's-complement `LONG` that the machine
stores for it. -/
def wrapLONG (x : Int) : Int := (x + 2147483648) % 4294967296 - 2147483648

/-- Atomic `InterlockedIncrement(&Addend)`: the new content of `Addend`, and the
value returned (the incremented value). -/
def InterlockedIncrement (addend : Int) : Int × Int :=
  let v := wrapLONG (addend + 1)
  (v, v)

/-- Atomic `InterlockedCompareExchange(&Destination, Exchange, Comparand)`: the new
content of `Destination`, and the value returned (the initial content). -/
def InterlockedCompareExchange (destination exchange comparand : Int) : Int × Int :=
  (if destination = comparand then exchange else destination, destination)

/-! ## The response payload -/

/-- The NUL byte that ends a C string. -/
def NUL : Char := Char.ofNat 0

/-- The array `RESP` points to: the concatenated string literals followed by the
terminating NUL. -/
def RESP : List Char :=
  ("HTTP/1.1 200 OK\r\n".toList
    ++ "Content-Type: text/plain\r\n".toList
    ++ "Content-Length: 2\r\n".toList
    ++ "Connection: close\r\n".toList
    ++ "\r\n".toList
    ++ "OK".toList) ++ [NUL]

/-- C `strlen`: the number of characters before the first NUL. -/
def strlen : List Char → Nat
  | [] => 0
  | c :: cs => if c = NUL then 0 else strlen cs + 1

/-! ## Events and process state -/

/-- `INVALID_SOCKET` of winsock2.h, `(SOCKET)(~0)` for a 64-bit `SOCKET`. -/
def INVALID_SOCKET : Nat := 18446744073709551615

/-- `SOCKET_ERROR` of winsock2.h. -/
def SOCKET_ERROR : Int := -1

/-- `SOMAXCONN` of winsock2.h. -/
def SOMAXCONN : Int := 2147483647

/-- The diagnostics `main` and `init_winsock` write to `stderr`. -/
inductive Diag where
  | WSAStartup_failed
  | CreateThread_failed
  | socket_failed
  | bind_failed
  | listen_failed
  | accept_failed
  deriving DecidableEq, Repr

/-- Observable actions of the main thread, in program order. -/
inductive Event where
  | WSAStartup (rc : Int)
  | stderr (d : Diag) (code : Int)
  | CreateThread_reporter (h : Nat)
  | socket (ret : Nat)
  | setsockopt_reuseaddr (s : Nat)
  | bind (s : Nat) (port : Nat) (rc : Int)
  | listen (s : Nat) (backlog : Int) (rc : Int)
  | WSACleanup
  | stdout_banner
  | accept (listen_sock : Nat) (ret : Nat)
  | recv (s : Nat) (size : Nat) (ret : Int)
  | InterlockedIncrement
  | send (s : Nat) (bytes : List Char) (ret : Int)
  | closesocket (s : Nat)
  deriving DecidableEq, Repr

/-- State of the process as seen from the main thread: the shared counter, the trace
of actions so far, and the exit status once `main` has returned. -/
structure Proc where
  g_total_requests : Int
  trace : List Event
  exit_code : Option Int
  deriving DecidableEq, Repr

/-- Record one action at the end of the trace. -/
def Proc.emit (p : Proc) (e : Event) : Proc :=
  { p with trace := p.trace ++ [e] }

/-- What the operating system answers during one iteration of the accept loop. -/
structure Conn where
  accept_ret : Nat
  WSAGetLastError : Int
  recv_ret : Int
  send_ret : Int
  deriving DecidableEq, Repr

/-- What the operating system answers during start-up. -/
structure StartupEnv where
  WSAStartup_rc : Int
  hReporter : Nat
  GetLastError : Int
  socket_ret : Nat
  bind_rc : Int
  listen_rc : Int
  WSAGetLastError : Int
  deriving DecidableEq, Repr

/-! ## The accept loop of `main` -/

/-- One iteration of the `for (;;)` loop of `main` (lines 109-132). -/
def loop_body (listen_sock : Nat) (c : Conn) (p : Proc) : Proc :=
  let p := p.emit (.accept listen_sock c.accept_ret)
  if c.accept_ret = INVALID_SOCKET then
    -- transient errors can happen; keep running
    p.emit (.stderr .accept_failed c.WSAGetLastError)
  else
    let p := p.emit (.recv c.accept_ret 2048 c.recv_ret)
    let p :=
      if c.recv_ret > 0 then
        let p := { p with g_total_requests := (InterlockedIncrement p.g_total_requests).1 }
        let p := p.emit .InterlockedIncrement
        p.emit (.send c.accept_ret (RESP.take (strlen RESP)) c.send_ret)
      else p
    p.emit (.closesocket c.accept_ret)

/-- The accept loop run for as many iterations as the environment has answers. -/
def accept_loop (listen_sock : Nat) : List Conn → Proc → Proc
  | [], p => p
  | c :: cs, p => accept_loop listen_sock cs (loop_body listen_sock c p)

/-- Function `init_winsock`: the process after the call, and the returned flag. -/
def init_winsock (env : StartupEnv) (p : Proc) : Proc × Int :=
  let p := p.emit (.WSAStartup env.WSAStartup_rc)
  if env.WSAStartup_rc ≠ 0 then
    (p.emit (.stderr .WSAStartup_failed env.WSAStartup_rc), 0)
  else (p, 1)

/-- Function `main`, run on a start-up environment and a finite supply of loop
iterations; `exit_code = none` means `main` has not returned. -/
def main (env : StartupEnv) (conns : List Conn) : Proc :=
  let p : Proc := { g_total_requests := 0, trace := [], exit_code := none }
  let (p, ok) := init_winsock env p
  if ok = 0 then { p with exit_code := some 1 }
  else
    -- Start reporter
    let p := p.emit (.CreateThread_reporter env.hReporter)
    if env.hReporter = 0 then
      let p := p.emit (.stderr .CreateThread_failed env.GetLastError)
      let p := p.emit .WSACleanup
      { p with exit_code := some 1 }
    else
      let p := p.emit (.socket env.socket_ret)
      if env.socket_ret = INVALID_SOCKET then
        let p := p.emit (.stderr .socket_failed env.WSAGetLastError)
        let p := p.emit .WSACleanup
        { p with exit_code := some 1 }
      else
        let listen_sock := env.socket_ret
        let p := p.emit (.setsockopt_reuseaddr listen_sock)
        let p := p.emit (.bind listen_sock 8080 env.bind_rc)
        if env.bind_rc = SOCKET_ERROR then
          let p := p.emit (.stderr .bind_failed env.WSAGetLastError)
          let p := p.emit (.closesocket listen_sock)
          let p := p.emit .WSACleanup
          { p with exit_code := some 1 }
        else
          let p := p.emit (.listen listen_sock SOMAXCONN env.listen_rc)
          if env.listen_rc = SOCKET_ERROR then
            let p := p.emit (.stderr .listen_failed env.WSAGetLastError)
            let p := p.emit (.closesocket listen_sock)
            let p := p.emit .WSACleanup
            { p with exit_code := some 1 }
          else
            let p := p.emit .stdout_banner
            accept_loop listen_sock conns p

/-! ## The reporter thread and the shared counter -/

/-- Local state of `reporter_thread`: `prev_total` and the lines printed so far, each
as the pair `(RPS, Total)`. -/
structure Reporter where
  prev_total : Int
  stdout : List (Int × Int)
  deriving DecidableEq, Repr

/-- One iteration of the loop of `reporter_thread` after its `Sleep(1000)`, on the
current content of `g_total_requests`: the content left in the counter and the new
local state. -/
def reporter_iteration (g : Int) (r : Reporter) : Int × Reporter :=
  let (g, total) := InterlockedCompareExchange g 0 0
  let rps := wrapLONG (total - r.prev_total)
  (g, { prev_total := total, stdout := r.stdout ++ [(rps, total)] })

/-- Initial local state of `reporter_thread`. -/
def Reporter.init : Reporter := { prev_total := 0, stdout := [] }

/-- Function `reporter_thread` run for as many wake-ups as there are entries in
`observed`, the i-th entry being the content of the counter at the i-th wake-up. -/
def reporter_thread : List Int → Reporter → Reporter
  | [], r => r
  | g :: gs, r => reporter_thread gs (reporter_iteration g r).2

/-- The two threads around the shared counter. -/
structure System where
  g_total_requests : Int
  reporter : Reporter
  deriving DecidableEq, Repr

/-- An atomic step on the shared counter: the increment of the connection handler,
or a wake-up of the reporter (whose only shared access is its atomic read). -/
inductive Step where
  | increment
  | wake
  deriving DecidableEq, Repr

/-- State at process start. -/
def System.init : System := { g_total_requests := 0, reporter := Reporter.init }

/-- Effect of one atomic step. -/
def System.step (s : System) : Step → System
  | .increment => { s with g_total_requests := (InterlockedIncrement s.g_total_requests).1 }
  | .wake =>
    let (g, r) := reporter_iteration s.g_total_requests s.reporter
    { g_total_requests := g, reporter := r }

/-- Effect of an interleaving of atomic steps. -/
def System.run : System → List Step → System
  | s, [] => s
  | s, x :: xs => System.run (s.step x) xs

/-- Totals returned by the reads of the reporter, oldest first. -/
def System.reads (s : System) : List Int := s.reporter.stdout.map Prod.snd

/-- Rates printed by the reporter, oldest first. -/
def System.rates (s : System) : List Int := s.reporter.stdout.map Prod.fst

/-- Number of increment steps in an interleaving. -/
def countInc : List Step → Nat
  | [] => 0
  | .increment :: xs => countInc xs + 1
  | .wake :: xs => countInc xs

/-! ## Observations on traces -/

/-- Events that one loop iteration adds to the trace. -/
def iteration_events (listen_sock : Nat) (c : Conn) (p : Proc) : List Event :=
  (loop_body listen_sock c p).trace.drop p.trace.length

/-- Whether an event is a `send`. -/
def Event.isSend : Event → Bool
  | .send _ _ _ => true
  | _ => false

/-- Whether an event is a `closesocket`. -/
def Event.isClose : Event → Bool
  | .closesocket _ => true
  | _ => false

/-- Whether an event is an `accept` that returned a connection. -/
def Event.isAccepted : Event → Bool
  | .accept _ ret => ret ≠ INVALID_SOCKET
  | _ => false

/-- Whether an event is the launch of the reporter thread. -/
def Event.isReporterLaunch : Event → Bool
  | .CreateThread_reporter _ => true
  | _ => false

/-- Whether an event creates the listening socket. -/
def Event.isSocket : Event → Bool
  | .socket _ => true
  | _ => false

/-- The one-connection-at-a-time discipline, checked along a trace; `cur` is the
connection currently open.  An `accept` is allowed only while no connection is open,
`recv`, `send` and `closesocket` only on the open connection, and at the end no
connection is left open. -/
def oneAtATime : Option Nat → List Event → Bool
  | cur, [] => cur.isNone
  | cur, .accept _ ret :: es =>
    cur.isNone && oneAtATime (if ret = INVALID_SOCKET then none else some ret) es
  | cur, .recv s _ _ :: es => (cur == some s) && oneAtATime cur es
  | cur, .send s _ _ :: es => (cur == some s) && oneAtATime cur es
  | cur, .closesocket s :: es => (cur == some s) && oneAtATime none es
  | cur, _ :: es => oneAtATime cur es

/-- The part of a message after the first blank line (CR LF CR LF), if any. -/
def bodyAfterBlankLine : List Char → Option (List Char)
  | [] => none
  | c :: cs =>
    match c :: cs with
    | '\r' :: '\n' :: '\r' :: '\n' :: body => some body
    | _ => bodyAfterBlankLine cs

/-- Drop the pattern from the front of the text when the text starts with it. -/
def dropMatch : List Char → List Char → Option (List Char)
  | [], s => some s
  | _ :: _, [] => none
  | a :: as, b :: bs => if a = b then dropMatch as bs else none

/-- Value of the decimal digits at the front of the text, continuing from `acc`. -/
def readDigits : List Char → Nat → Nat
  | [], acc => acc
  | c :: cs, acc =>
    if 48 ≤ c.toNat ∧ c.toNat ≤ 57 then readDigits cs (acc * 10 + (c.toNat - 48)) else acc

/-- The number a message declares in its `Content-Length` header, if it has one. -/
def declaredContentLength : List Char → Option Nat
  | [] => none
  | c :: cs =>
    match dropMatch "Content-Length: ".toList (c :: cs) with
    | some rest => some (readDigits rest 0)
    | none => declaredContentLength cs

/-- Closed form of the events of one loop iteration. -/
def body_events (listen_sock : Nat) (c : Conn) : List Event :=
  if c.accept_ret = INVALID_SOCKET then
    [.accept listen_sock c.accept_ret, .stderr .accept_failed c.WSAGetLastError]
  else if c.recv_ret > 0 then
    [.accept listen_sock c.accept_ret, .recv c.accept_ret 2048 c.recv_ret,
     .InterlockedIncrement, .send c.accept_ret (RESP.take (strlen RESP)) c.send_ret,
     .closesocket c.accept_ret]
  else
    [.accept listen_sock c.accept_ret, .recv c.accept_ret 2048 c.recv_ret,
     .closesocket c.accept_ret]

/-- Closed form of the events of a run of the accept loop. -/
def loop_events (listen_sock : Nat) : List Conn → List Event
  | [] => []
  | c :: cs => body_events listen_sock c ++ loop_events listen_sock cs

/-- Whether an iteration accepts a connection and reads at least one byte from it. -/
def Conn.recognized (c : Conn) : Bool :=
  c.accept_ret ≠ INVALID_SOCKET && decide (c.recv_ret > 0)

/-- Whether the `accept` of an iteration returned a connection. -/
def Conn.accepted (c : Conn) : Bool :=
  c.accept_ret ≠ INVALID_SOCKET

/-- Whether every start-up call of `main` succeeds, so that the loop is entered. -/
def StartupEnv.ok (env : StartupEnv) : Bool :=
  env.WSAStartup_rc = 0 && env.hReporter ≠ 0 && env.socket_ret ≠ INVALID_SOCKET
    && env.bind_rc ≠ SOCKET_ERROR && env.listen_rc ≠ SOCKET_ERROR

/-- The bytes of the response as the specification writes them. -/
def wireResponse : List Char :=
  "HTTP/1.1 200 OK\r\nContent-Type: text/plain\r\nContent-Length: 2\r\nConnection: close\r\n\r\nOK".toList

/-- The reports as the specification words them: on the observed totals
`t_1, ..., t_k` the i-th report is `(t_i - t_(i-1), t_i)`, with `prev` for `t_0`. -/
def specReports (prev : Int) : List Int → List (Int × Int)
  | [] => []
  | t :: ts => (t - prev, t) :: specReports t ts

/-- Whether every difference `t_i - t_(i-1)` of the observed totals is a value of
the 32-bit `LONG`, with `prev` for `t_0`. -/
def diffsRepresentable (prev : Int) : List Int → Bool
  | [] => true
  | t :: ts =>
    decide (LONG_MIN ≤ t - prev) && decide (t - prev ≤ LONG_MAX) && diffsRepresentable t ts

/-- The invariant of the two threads while the counter has not wrapped: after `m`
increments the counter holds `m`, `prev_total` is the last total read (zero before
the first read) and lies between zero and the counter, the printed rates add up to
`prev_total`, and the totals read so far are non-negative and non-decreasing. -/
def CounterInv (s : System) (m : Nat) : Prop :=
  s.g_total_requests = m
  ∧ 0 ≤ s.reporter.prev_total
  ∧ s.reporter.prev_total ≤ m
  ∧ s.rates.sum = s.reporter.prev_total
  ∧ s.reads.getLast?.getD 0 = s.reporter.prev_total
  ∧ s.reads.Pairwise (fun a b => a ≤ b)
  ∧ ∀ t ∈ s.reads, 0 ≤ t ∧ t ≤ s.reporter.prev_total

/-! ## Lemmas on `LONG` arithmetic -/

lemma wrapLONG_of_range (x : Int) (h1 : -2147483648 ≤ x) (h2 : x ≤ 2147483647) :
    wrapLONG x = x := by
  unfold wrapLONG; omega

lemma wrapLONG_add_wrap (a b : Int) : wrapLONG (wrapLONG a + b) = wrapLONG (a + b) := by
  unfold wrapLONG; omega

lemma wrapLONG_le (x : Int) (h : 0 ≤ x) : wrapLONG x ≤ x := by
  unfold wrapLONG; omega

/-! ## Lemmas on the accept loop -/

lemma loop_body_trace (ls : Nat) (c : Conn) (p : Proc) :
    (loop_body ls c p).trace = p.trace ++ body_events ls c := by
  unfold loop_body body_events Proc.emit
  by_cases h1 : c.accept_ret = INVALID_SOCKET
  · simp [h1]
  · by_cases h2 : c.recv_ret > 0
    · simp [h1, h2]
    · simp [h1, h2]

lemma loop_body_counter (ls : Nat) (c : Conn) (p : Proc) :
    (loop_body ls c p).g_total_requests
      = if c.recognized then wrapLONG (p.g_total_requests + 1) else p.g_total_requests := by
  unfold loop_body Conn.recognized Proc.emit InterlockedIncrement
  by_cases h1 : c.accept_ret = INVALID_SOCKET
  · simp [h1]
  · by_cases h2 : c.recv_ret > 0
    · simp [h1, h2]
    · simp [h1, h2]

lemma loop_body_exit_code (ls : Nat) (c : Conn) (p : Proc) :
    (loop_body ls c p).exit_code = p.exit_code := by
  unfold loop_body Proc.emit
  by_cases h1 : c.accept_ret = INVALID_SOCKET
  · simp [h1]
  · by_cases h2 : c.recv_ret > 0
    · simp [h1, h2]
    · simp [h1, h2]

lemma iteration_events_eq (ls : Nat) (c : Conn) (p : Proc) :
    iteration_events ls c p = body_events ls c := by
  unfold iteration_events
  rw [loop_body_trace]
  simp

lemma accept_loop_trace (ls : Nat) (cs : List Conn) (p : Proc) :
    (accept_loop ls cs p).trace = p.trace ++ loop_events ls cs := by
  induction cs generalizing p with
  | nil => simp [accept_loop, loop_events]
  | cons c cs ih =>
    simp only [accept_loop, loop_events]
    rw [ih, loop_body_trace, List.append_assoc]

lemma accept_loop_exit_code (ls : Nat) (cs : List Conn) (p : Proc) :
    (accept_loop ls cs p).exit_code = p.exit_code := by
  induction cs generalizing p with
  | nil => rfl
  | cons c cs ih =>
    simp only [accept_loop]
    rw [ih, loop_body_exit_code]

lemma accept_loop_counter (ls : Nat) (cs : List Conn) (p : Proc) :
    (accept_loop ls cs p).g_total_requests
      = if cs.countP Conn.recognized = 0 then p.g_total_requests
        else wrapLONG (p.g_total_requests + (cs.countP Conn.recognized : Nat)) := by
  induction cs generalizing p with
  | nil => simp [accept_loop]
  | cons c cs ih =>
    simp only [accept_loop]
    rw [ih, loop_body_counter]
    by_cases hc : c.recognized = true
    · simp only [hc, if_true, List.countP_cons_of_pos]
      by_cases h0 : List.countP Conn.recognized cs = 0
      · simp [h0]
      · simp only [h0, if_false, Nat.add_eq_zero, one_ne_zero, and_false]
        rw [wrapLONG_add_wrap]
        congr 1
        push_cast
        ring
    · simp [hc]

lemma countP_recognized_all (cs : List Conn)
    (hacc : ∀ c ∈ cs, c.accept_ret ≠ INVALID_SOCKET) (hrecv : ∀ c ∈ cs, 0 < c.recv_ret) :
    cs.countP Conn.recognized = cs.length := by
  rw [List.countP_eq_length]
  intro c hc
  simp [Conn.recognized, hacc c hc, hrecv c hc]

lemma count_increment_body (ls : Nat) (c : Conn) :
    (body_events ls c).count Event.InterlockedIncrement
      = if c.recognized then 1 else 0 := by
  unfold body_events Conn.recognized
  by_cases h1 : c.accept_ret = INVALID_SOCKET
  · simp [h1]
  · by_cases h2 : c.recv_ret > 0
    · simp [h1, h2]
    · simp [h1, h2]

lemma count_increment_loop (ls : Nat) (cs : List Conn) :
    (loop_events ls cs).count Event.InterlockedIncrement = cs.countP Conn.recognized := by
  induction cs with
  | nil => simp [loop_events]
  | cons c cs ih =>
    simp only [loop_events, List.count_append, ih, count_increment_body, List.countP_cons]
    by_cases hc : c.recognized = true
    · simp [hc]; omega
    · simp [hc]

lemma body_events_head (ls : Nat) (c : Conn) :
    ∃ rest, body_events ls c = Event.accept ls c.accept_ret :: rest := by
  unfold body_events
  by_cases h1 : c.accept_ret = INVALID_SOCKET
  · simp [h1]
  · by_cases h2 : c.recv_ret > 0
    · simp [h1, h2]
    · simp [h1, h2]

lemma oneAtATime_body (ls : Nat) (c : Conn) (rest : List Event) :
    oneAtATime none (body_events ls c ++ rest) = oneAtATime none rest := by
  unfold body_events
  by_cases h1 : c.accept_ret = INVALID_SOCKET
  · simp [h1, oneAtATime]
  · by_cases h2 : c.recv_ret > 0
    · simp [h1, h2, oneAtATime]
    · simp [h1, h2, oneAtATime]

lemma oneAtATime_loop (ls : Nat) (cs : List Conn) :
    oneAtATime none (loop_events ls cs) = true := by
  induction cs with
  | nil => rfl
  | cons c cs ih => simp only [loop_events]; rw [oneAtATime_body, ih]

lemma countP_isClose_body (ls : Nat) (c : Conn) :
    (body_events ls c).countP Event.isClose = if c.accepted then 1 else 0 := by
  unfold body_events Conn.accepted
  by_cases h1 : c.accept_ret = INVALID_SOCKET
  · simp [h1, Event.isClose]
  · by_cases h2 : c.recv_ret > 0
    · simp [h1, h2, Event.isClose]
    · simp [h1, h2, Event.isClose]

lemma countP_isClose_loop (ls : Nat) (cs : List Conn) :
    (loop_events ls cs).countP Event.isClose = cs.countP Conn.accepted := by
  induction cs with
  | nil => simp [loop_events]
  | cons c cs ih =>
    simp only [loop_events, List.countP_append, ih, countP_isClose_body, List.countP_cons]
    by_cases hc : c.accepted = true
    · simp [hc]; omega
    · simp [hc]

lemma countP_isAccepted_body (ls : Nat) (c : Conn) :
    (body_events ls c).countP Event.isAccepted = if c.accepted then 1 else 0 := by
  unfold body_events Conn.accepted
  by_cases h1 : c.accept_ret = INVALID_SOCKET
  · simp [h1, Event.isAccepted]
  · by_cases h2 : c.recv_ret > 0
    · simp [h1, h2, Event.isAccepted]
    · simp [h1, h2, Event.isAccepted]

lemma countP_isAccepted_loop (ls : Nat) (cs : List Conn) :
    (loop_events ls cs).countP Event.isAccepted = cs.countP Conn.accepted := by
  induction cs with
  | nil => simp [loop_events]
  | cons c cs ih =>
    simp only [loop_events, List.countP_append, ih, countP_isAccepted_body, List.countP_cons]
    by_cases hc : c.accepted = true
    · simp [hc]; omega
    · simp [hc]

lemma loop_trace_drop (ls : Nat) (cs : List Conn) (p : Proc) :
    (accept_loop ls cs p).trace.drop p.trace.length = loop_events ls cs := by
  rw [accept_loop_trace]; simp

lemma countP_recognized_filter (cs : List Conn) :
    (cs.filter Conn.accepted).countP Conn.recognized = cs.countP Conn.recognized := by
  induction cs with
  | nil => rfl
  | cons c cs ih =>
    by_cases h1 : c.accept_ret = INVALID_SOCKET
    · have ha : c.accepted = false := by simp [Conn.accepted, h1]
      have hr : c.recognized = false := by simp [Conn.recognized, h1]
      simp [List.filter_cons, ha, hr, ih]
    · have ha : c.accepted = true := by simp [Conn.accepted, h1]
      simp [List.filter_cons, ha, List.countP_cons, ih]

lemma main_of_ok (env : StartupEnv) (cs : List Conn) (h : env.ok = true) :
    main env cs = accept_loop env.socket_ret cs
      { g_total_requests := 0
        trace := [.WSAStartup env.WSAStartup_rc, .CreateThread_reporter env.hReporter,
                  .socket env.socket_ret, .setsockopt_reuseaddr env.socket_ret,
                  .bind env.socket_ret 8080 env.bind_rc,
                  .listen env.socket_ret SOMAXCONN env.listen_rc, .stdout_banner]
        exit_code := none } := by
  simp only [StartupEnv.ok, Bool.and_eq_true, decide_eq_true_eq] at h
  obtain ⟨⟨⟨⟨h1, h2⟩, h3⟩, h4⟩, h5⟩ := h
  simp [main, init_winsock, Proc.emit, h1, h2, h3, h4, h5]

lemma resp_bytes : RESP.take (strlen RESP) = wireResponse := by decide

/-! ## The accept loop: counting, responding, closing -/

/-- C1, as the code has it: starting from a counter of zero, after a run of N accepted
connections whose `recv` each returned at least one byte, `g_total_requests` holds N
reduced to the 32-bit `LONG`, which is N itself whenever N < 2^31; the run performs
exactly N increments, one per connection, whatever `send` returns. -/
theorem C1_counter_equals_connections (ls : Nat) (cs : List Conn) (p : Proc)
    (hzero : p.g_total_requests = 0)
    (hacc : ∀ c ∈ cs, c.accept_ret ≠ INVALID_SOCKET)
    (hrecv : ∀ c ∈ cs, 0 < c.recv_ret) :
    (accept_loop ls cs p).g_total_requests = wrapLONG (cs.length : Nat)
    ∧ (cs.length < 2147483648 →
        (accept_loop ls cs p).g_total_requests = (cs.length : Nat))
    ∧ ((accept_loop ls cs p).trace.drop p.trace.length).count Event.InterlockedIncrement
        = cs.length
    ∧ (∀ c ∈ cs, ∀ q : Proc,
        (iteration_events ls c q).count Event.InterlockedIncrement = 1
        ∧ (loop_body ls c q).g_total_requests = wrapLONG (q.g_total_requests + 1)) := by
  have hcount := countP_recognized_all cs hacc hrecv
  have hg : (accept_loop ls cs p).g_total_requests = wrapLONG (cs.length : Nat) := by
    rw [accept_loop_counter, hcount, hzero]
    by_cases h0 : cs.length = 0
    · simp [h0, wrapLONG]
    · simp [h0]
  refine ⟨hg, ?_, ?_, ?_⟩
  · intro hN
    rw [hg]
    apply wrapLONG_of_range <;> omega
  · rw [loop_trace_drop, count_increment_loop, hcount]
  · intro c hc q
    have hr : c.recognized = true := by
      simp [Conn.recognized, hacc c hc, hrecv c hc]
    rw [iteration_events_eq, count_increment_body, loop_body_counter]
    simp [hr]

/-- Witness for C1: three connections that each deliver 18 bytes leave the counter
at 3. -/
theorem C1_counter_equals_connections_witness :
    (accept_loop 5 [⟨7, 0, 18, 85⟩, ⟨8, 0, 18, -1⟩, ⟨7, 0, 1, 0⟩]
      ⟨0, [], none⟩).g_total_requests = 3 :=
  (C1_counter_equals_connections 5 [⟨7, 0, 18, 85⟩, ⟨8, 0, 18, -1⟩, ⟨7, 0, 1, 0⟩]
    ⟨0, [], none⟩ rfl (by decide) (by decide)).2.1 (by decide)

/-- Counterexample to C1 as stated: after 2^31 accepted connections that each
deliver one byte, the 32-bit counter holds -2^31, not 2^31. -/
theorem C1_counterexample_wraps :
    (∀ c ∈ List.replicate 2147483648 (⟨7, 0, 1, 85⟩ : Conn),
        c.accept_ret ≠ INVALID_SOCKET ∧ 0 < c.recv_ret)
    ∧ (List.replicate 2147483648 (⟨7, 0, 1, 85⟩ : Conn)).length = 2147483648
    ∧ (accept_loop 5 (List.replicate 2147483648 (⟨7, 0, 1, 85⟩ : Conn))
        ⟨0, [], none⟩).g_total_requests = -2147483648
    ∧ (accept_loop 5 (List.replicate 2147483648 (⟨7, 0, 1, 85⟩ : Conn))
        ⟨0, [], none⟩).g_total_requests ≠ 2147483648 := by
  have hall : ∀ c ∈ List.replicate 2147483648 (⟨7, 0, 1, 85⟩ : Conn),
      c.accept_ret ≠ INVALID_SOCKET ∧ 0 < c.recv_ret := by
    intro c hc
    rw [List.eq_of_mem_replicate hc]
    decide
  have hcount := countP_recognized_all _ (fun c hc => (hall c hc).1) (fun c hc => (hall c hc).2)
  have hg : (accept_loop 5 (List.replicate 2147483648 (⟨7, 0, 1, 85⟩ : Conn))
      ⟨0, [], none⟩).g_total_requests = -2147483648 := by
    rw [accept_loop_counter, hcount, List.length_replicate]
    decide
  refine ⟨hall, List.length_replicate _ _, hg, ?_⟩
  rw [hg]
  decide

/-- C2: handling an accepted connection whose `recv` returns zero or a negative value
leaves `g_total_requests` unchanged; in particular a single such connection on a
fresh process leaves the counter at 0. -/
theorem C2_unread_connection_not_counted (ls : Nat) (c : Conn) (p : Proc)
    (env : StartupEnv)
    (hacc : c.accept_ret ≠ INVALID_SOCKET) (hrecv : c.recv_ret ≤ 0) :
    (loop_body ls c p).g_total_requests = p.g_total_requests
    ∧ (p.g_total_requests = 0 → (accept_loop ls [c] p).g_total_requests = 0)
    ∧ (env.ok = true → (main env [c]).g_total_requests = 0) := by
  have hr : c.recognized = false := by
    simp [Conn.recognized, hacc, hrecv]
  have h1 : (loop_body ls c p).g_total_requests = p.g_total_requests := by
    rw [loop_body_counter]; simp [hr]
  refine ⟨h1, ?_, ?_⟩
  · intro h0
    simp only [accept_loop]
    rw [h1, h0]
  · intro hok
    rw [main_of_ok env [c] hok]
    simp only [accept_loop]
    rw [loop_body_counter]; simp [hr]

/-- Witness for C2: a client that connects and closes without sending (recv returns
0) on a freshly started process. -/
theorem C2_unread_connection_not_counted_witness :
    (main ⟨0, 1, 0, 5, 0, 0, 0⟩ [⟨7, 0, 0, 0⟩]).g_total_requests = 0 :=
  (C2_unread_connection_not_counted 5 ⟨7, 0, 0, 0⟩ ⟨0, [], none⟩ ⟨0, 1, 0, 5, 0, 0, 0⟩
    (by decide) (by decide)).2.2 (by decide)

/-- C3, as the code has it: for an accepted connection whose `recv` returned at least one byte,
the iteration performs exactly one `send`, of the bytes of `RESP`, on that connection
before closing it; for an accepted connection whose `recv` returned zero or failed,
the iteration performs no `send` and closes the connection. -/
theorem C3_send_only_when_bytes_read (ls : Nat) (c : Conn) (p : Proc)
    (hacc : c.accept_ret ≠ INVALID_SOCKET) :
    (0 < c.recv_ret →
      iteration_events ls c p
        = [.accept ls c.accept_ret, .recv c.accept_ret 2048 c.recv_ret,
           .InterlockedIncrement,
           .send c.accept_ret (RESP.take (strlen RESP)) c.send_ret,
           .closesocket c.accept_ret]
      ∧ (iteration_events ls c p).countP Event.isSend = 1)
    ∧ (c.recv_ret ≤ 0 →
      iteration_events ls c p
        = [.accept ls c.accept_ret, .recv c.accept_ret 2048 c.recv_ret,
           .closesocket c.accept_ret]
      ∧ (iteration_events ls c p).countP Event.isSend = 0) := by
  constructor
  · intro h
    have hb : body_events ls c
        = [.accept ls c.accept_ret, .recv c.accept_ret 2048 c.recv_ret,
           .InterlockedIncrement,
           .send c.accept_ret (RESP.take (strlen RESP)) c.send_ret,
           .closesocket c.accept_ret] := by
      simp [body_events, hacc, h]
    rw [iteration_events_eq, hb]
    exact ⟨rfl, by simp [Event.isSend]⟩
  · intro h
    have hb : body_events ls c
        = [.accept ls c.accept_ret, .recv c.accept_ret 2048 c.recv_ret,
           .closesocket c.accept_ret] := by
      simp [body_events, hacc, h]
    rw [iteration_events_eq, hb]
    exact ⟨rfl, by simp [Event.isSend]⟩

/-- Witness for C3: a connection that delivers 18 bytes gets exactly one send. -/
theorem C3_send_only_when_bytes_read_witness :
    (iteration_events 5 ⟨7, 0, 18, 85⟩ ⟨0, [], none⟩).countP Event.isSend = 1 :=
  ((C3_send_only_when_bytes_read 5 ⟨7, 0, 18, 85⟩ ⟨0, [], none⟩ (by decide)).1
    (by decide)).2

/-- Counterexample to C3 as stated: an accepted connection whose `recv` returns 0 is
closed without any `send`. -/
theorem C3_counterexample_no_send :
    (⟨7, 0, 0, 0⟩ : Conn).accept_ret ≠ INVALID_SOCKET
    ∧ iteration_events 5 ⟨7, 0, 0, 0⟩ ⟨0, [], none⟩
        = [.accept 5 7, .recv 7 2048 0, .closesocket 7]
    ∧ (iteration_events 5 ⟨7, 0, 0, 0⟩ ⟨0, [], none⟩).countP Event.isSend = 0
    ∧ (iteration_events 5 ⟨7, 0, 0, 0⟩ ⟨0, [], none⟩).countP Event.isSend ≠ 1 := by
  decide

/-- C4: for an accepted connection whose `recv` returned at least one byte, the one
`send` of the iteration is handed exactly the 85 bytes of the specified response,
without a NUL; the part after the blank line is the 2 bytes "OK", and 2 is the
declared Content-Length. -/
theorem C4_response_bytes (ls : Nat) (c : Conn) (p : Proc)
    (hacc : c.accept_ret ≠ INVALID_SOCKET) (hrecv : 0 < c.recv_ret) :
    (iteration_events ls c p).filter Event.isSend
      = [.send c.accept_ret wireResponse c.send_ret]
    ∧ strlen RESP = 85
    ∧ wireResponse.length = 85
    ∧ NUL ∉ wireResponse
    ∧ bodyAfterBlankLine wireResponse = some "OK".toList
    ∧ "OK".toList.length = 2
    ∧ declaredContentLength wireResponse = some 2 := by
  refine ⟨?_, by decide, by decide, by decide, by decide, by decide, by decide⟩
  have hb : body_events ls c
      = [.accept ls c.accept_ret, .recv c.accept_ret 2048 c.recv_ret,
         .InterlockedIncrement,
         .send c.accept_ret (RESP.take (strlen RESP)) c.send_ret,
         .closesocket c.accept_ret] := by
    simp [body_events, hacc, hrecv]
  rw [iteration_events_eq, hb, resp_bytes]
  simp [Event.isSend]

/-- Witness for C4: the bytes sent to a connection that delivered 18 bytes. -/
theorem C4_response_bytes_witness :
    (iteration_events 5 ⟨7, 0, 18, 85⟩ ⟨0, [], none⟩).filter Event.isSend
      = [.send 7 wireResponse 85] :=
  (C4_response_bytes 5 ⟨7, 0, 18, 85⟩ ⟨0, [], none⟩ (by decide) (by decide)).1

/-- C9: in every run of the accept loop an `accept` happens only while no connection
is open, `recv`, `send` and `closesocket` act on the connection accepted last, and no
connection is left open at the end of an iteration; the run closes as many sockets as
it accepted, and every iteration that accepted a connection starts with that `accept`,
ends with the `closesocket` of that connection and contains no other close. -/
theorem C9_closed_before_next_accept (ls : Nat) (cs : List Conn) (p : Proc) :
    oneAtATime none ((accept_loop ls cs p).trace.drop p.trace.length) = true
    ∧ ((accept_loop ls cs p).trace.drop p.trace.length).countP Event.isClose
        = ((accept_loop ls cs p).trace.drop p.trace.length).countP Event.isAccepted
    ∧ ((accept_loop ls cs p).trace.drop p.trace.length).countP Event.isClose
        = cs.countP Conn.accepted
    ∧ (∀ c ∈ cs, c.accept_ret ≠ INVALID_SOCKET → ∀ q : Proc,
        (iteration_events ls c q).head? = some (.accept ls c.accept_ret)
        ∧ (iteration_events ls c q).getLast? = some (.closesocket c.accept_ret)
        ∧ (iteration_events ls c q).countP Event.isClose = 1
        ∧ oneAtATime none (iteration_events ls c q) = true) := by
  rw [loop_trace_drop]
  refine ⟨oneAtATime_loop ls cs, ?_, countP_isClose_loop ls cs, ?_⟩
  · rw [countP_isClose_loop, countP_isAccepted_loop]
  · intro c _ hacc q
    rw [iteration_events_eq]
    have h := oneAtATime_body ls c []
    rw [List.append_nil] at h
    refine ⟨?_, ?_, ?_, ?_⟩
    · obtain ⟨rest, hr⟩ := body_events_head ls c
      rw [hr]; rfl
    · unfold body_events
      by_cases h2 : c.recv_ret > 0
      · simp [hacc, h2]
      · simp [hacc, h2]
    · rw [countP_isClose_body]; simp [Conn.accepted, hacc]
    · rw [h]; rfl

/-- C10: an iteration whose `accept` returns `INVALID_SOCKET` only logs the error: it
performs no `recv`, `send` or `closesocket`, leaves `g_total_requests` and the exit
status unchanged, and the loop goes on with the next `accept`; the final counter of
any run equals that of the run with the failed accepts removed. -/
theorem C10_failed_accept_is_transient (ls : Nat) (c c2 : Conn) (cs ds : List Conn)
    (p : Proc) (hfail : c.accept_ret = INVALID_SOCKET) :
    iteration_events ls c p
      = [.accept ls INVALID_SOCKET, .stderr .accept_failed c.WSAGetLastError]
    ∧ (loop_body ls c p).g_total_requests = p.g_total_requests
    ∧ (loop_body ls c p).exit_code = p.exit_code
    ∧ (accept_loop ls (c :: ds) p).exit_code = p.exit_code
    ∧ (∃ rest, (accept_loop ls (c :: c2 :: ds) p).trace
        = p.trace ++ [.accept ls INVALID_SOCKET, .stderr .accept_failed c.WSAGetLastError,
                      .accept ls c2.accept_ret] ++ rest)
    ∧ (accept_loop ls (cs ++ c :: ds) p).g_total_requests
        = (accept_loop ls (cs ++ ds) p).g_total_requests
    ∧ (accept_loop ls cs p).g_total_requests
        = (accept_loop ls (cs.filter Conn.accepted) p).g_total_requests := by
  have hb : body_events ls c
      = [.accept ls INVALID_SOCKET, .stderr .accept_failed c.WSAGetLastError] := by
    simp [body_events, hfail]
  have hr : c.recognized = false := by simp [Conn.recognized, hfail]
  have hg : ∀ q : Proc, (loop_body ls c q).g_total_requests = q.g_total_requests := by
    intro q; rw [loop_body_counter]; simp [hr]
  refine ⟨?_, hg p, loop_body_exit_code ls c p, accept_loop_exit_code ls _ p, ?_, ?_, ?_⟩
  · rw [iteration_events_eq, hb]
  · obtain ⟨rest, hrest⟩ := body_events_head ls c2
    refine ⟨rest ++ loop_events ls ds, ?_⟩
    rw [accept_loop_trace]
    simp only [loop_events]
    rw [hb, hrest]
    simp
  · rw [accept_loop_counter, accept_loop_counter]
    simp [List.countP_append, List.countP_cons, hr]
  · rw [accept_loop_counter, accept_loop_counter, countP_recognized_filter]

/-- Witness for C10: a failed accept between two served connections. -/
theorem C10_failed_accept_is_transient_witness :
    (accept_loop 5 ([⟨7, 0, 18, 85⟩] ++ ⟨INVALID_SOCKET, 10024, 0, 0⟩ :: [⟨8, 0, 18, 85⟩])
        ⟨0, [], none⟩).g_total_requests
      = (accept_loop 5 ([⟨7, 0, 18, 85⟩] ++ [⟨8, 0, 18, 85⟩]) ⟨0, [], none⟩).g_total_requests :=
  (C10_failed_accept_is_transient 5 ⟨INVALID_SOCKET, 10024, 0, 0⟩ ⟨8, 0, 18, 85⟩
    [⟨7, 0, 18, 85⟩] [⟨8, 0, 18, 85⟩] ⟨0, [], none⟩ rfl).2.2.2.2.2.1

/-! ## Start-up of `main` -/

/-- C8, as the code has it: if `bind` fails at start-up, `main` logs the error, closes the
listening socket, calls `WSACleanup` and returns exit status 1 without accepting any
connection; the reporter thread was launched before the listening socket was created,
so on such a run the reporter has been started. -/
theorem C8_bind_failure_exits (env : StartupEnv) (cs : List Conn)
    (hws : env.WSAStartup_rc = 0) (hthread : env.hReporter ≠ 0)
    (hsock : env.socket_ret ≠ INVALID_SOCKET) (hbind : env.bind_rc = SOCKET_ERROR) :
    (main env cs).exit_code = some 1
    ∧ (main env cs).trace
        = [.WSAStartup 0, .CreateThread_reporter env.hReporter, .socket env.socket_ret,
           .setsockopt_reuseaddr env.socket_ret, .bind env.socket_ret 8080 SOCKET_ERROR,
           .stderr .bind_failed env.WSAGetLastError, .closesocket env.socket_ret,
           .WSACleanup]
    ∧ (main env cs).trace.findIdx Event.isReporterLaunch
        < (main env cs).trace.findIdx Event.isSocket
    ∧ (main env cs).g_total_requests = 0 := by
  have hm : main env cs =
      { g_total_requests := 0
        trace := [.WSAStartup 0, .CreateThread_reporter env.hReporter,
           .socket env.socket_ret,
           .setsockopt_reuseaddr env.socket_ret, .bind env.socket_ret 8080 SOCKET_ERROR,
           .stderr .bind_failed env.WSAGetLastError, .closesocket env.socket_ret,
           .WSACleanup]
        exit_code := some 1 } := by
    simp [main, init_winsock, Proc.emit, hws, hthread, hsock, hbind]
  rw [hm]
  refine ⟨rfl, rfl, ?_, rfl⟩
  simp [List.findIdx_cons, Event.isReporterLaunch, Event.isSocket]

/-- Witness for C8: the port is in use (error 10048). -/
theorem C8_bind_failure_exits_witness :
    (main ⟨0, 1, 0, 5, -1, 0, 10048⟩ []).exit_code = some 1 :=
  (C8_bind_failure_exits ⟨0, 1, 0, 5, -1, 0, 10048⟩ [] rfl (by decide) (by decide) rfl).1

/-- Counterexample to C8 as stated: on a run where `bind` fails, the reporter thread
has been started, and it was started before the listening socket was created. -/
theorem C8_counterexample_reporter_started :
    Event.bind 5 8080 SOCKET_ERROR ∈ (main ⟨0, 1, 0, 5, -1, 0, 10048⟩ []).trace
    ∧ (main ⟨0, 1, 0, 5, -1, 0, 10048⟩ []).exit_code = some 1
    ∧ Event.CreateThread_reporter 1 ∈ (main ⟨0, 1, 0, 5, -1, 0, 10048⟩ []).trace
    ∧ (main ⟨0, 1, 0, 5, -1, 0, 10048⟩ []).trace.findIdx Event.isReporterLaunch
        < (main ⟨0, 1, 0, 5, -1, 0, 10048⟩ []).trace.findIdx Event.isSocket := by
  decide

/-! ## Lemmas on the reporter and the shared counter -/

lemma reporter_iteration_eq (g : Int) (r : Reporter) :
    reporter_iteration g r
      = (g, { prev_total := g, stdout := r.stdout ++ [(wrapLONG (g - r.prev_total), g)] }) := by
  unfold reporter_iteration InterlockedCompareExchange
  by_cases h : g = 0
  · simp [h]
  · simp [h]

lemma reporter_thread_spec (ts : List Int) (r : Reporter)
    (h : diffsRepresentable r.prev_total ts = true) :
    (reporter_thread ts r).stdout = r.stdout ++ specReports r.prev_total ts
    ∧ (reporter_thread ts r).prev_total = ts.getLast?.getD r.prev_total := by
  induction ts generalizing r with
  | nil => simp [reporter_thread, specReports]
  | cons t ts ih =>
    simp only [diffsRepresentable, Bool.and_eq_true, decide_eq_true_eq, LONG_MIN,
      LONG_MAX] at h
    obtain ⟨⟨h1, h2⟩, h3⟩ := h
    simp only [reporter_thread, reporter_iteration_eq]
    have hw : wrapLONG (t - r.prev_total) = t - r.prev_total :=
      wrapLONG_of_range _ h1 h2
    obtain ⟨ih1, ih2⟩ := ih (Reporter.mk t
      (r.stdout ++ [(wrapLONG (t - r.prev_total), t)])) h3
    rw [ih1, ih2, hw]
    refine ⟨by simp [specReports], ?_⟩
    cases ts with
    | nil => simp
    | cons u us =>
      rw [List.getLast?_cons_cons, List.getLast?_eq_getLast _ (List.cons_ne_nil u us)]
      rfl

lemma specReports_getElem? (prev : Int) (ts : List Int) (i : Nat) (hi : i < ts.length) :
    (specReports prev ts)[i]? = some (ts.getD i 0 - (prev :: ts).getD i 0, ts.getD i 0) := by
  induction ts generalizing prev i with
  | nil => simp at hi
  | cons t ts ih =>
    cases i with
    | zero => simp [specReports]
    | succ j =>
      have hj : j < ts.length := by simpa using hi
      simp only [specReports, List.getElem?_cons_succ]
      rw [ih t j hj]
      simp

lemma step_increment_eq (s : System) :
    s.step .increment = { s with g_total_requests := wrapLONG (s.g_total_requests + 1) } := rfl

lemma step_wake_eq (s : System) :
    s.step .wake
      = { g_total_requests := s.g_total_requests,
          reporter := { prev_total := s.g_total_requests,
                        stdout := s.reporter.stdout
                          ++ [(wrapLONG (s.g_total_requests - s.reporter.prev_total),
                               s.g_total_requests)] } } := by
  simp [System.step, reporter_iteration_eq]

lemma run_append (s : System) (xs ys : List Step) :
    s.run (xs ++ ys) = (s.run xs).run ys := by
  induction xs generalizing s with
  | nil => rfl
  | cons x xs ih => exact ih (s.step x)

lemma countInc_append (xs ys : List Step) :
    countInc (xs ++ ys) = countInc xs + countInc ys := by
  induction xs with
  | nil => simp [countInc]
  | cons x xs ih =>
    cases x with
    | increment =>
      show countInc (xs ++ ys) + 1 = countInc xs + 1 + countInc ys
      rw [ih]; omega
    | wake =>
      show countInc (xs ++ ys) = countInc xs + countInc ys
      exact ih

lemma run_replicate_increment (s : System) (n : Nat) :
    s.run (List.replicate (n + 1) .increment)
      = { s with g_total_requests := wrapLONG (s.g_total_requests + ((n + 1 : Nat) : Int)) } := by
  induction n generalizing s with
  | zero => simp [List.replicate, System.run, step_increment_eq]
  | succ n ih =>
    show (s.step .increment).run (List.replicate (n + 1) .increment) = _
    rw [ih, step_increment_eq]
    simp only
    rw [wrapLONG_add_wrap]
    congr 2
    push_cast
    ring

lemma run_counter (sched : List Step) (s : System) :
    (s.run sched).g_total_requests
      = if countInc sched = 0 then s.g_total_requests
        else wrapLONG (s.g_total_requests + (countInc sched : Nat)) := by
  induction sched generalizing s with
  | nil => simp [System.run, countInc]
  | cons x xs ih =>
    simp only [System.run]
    rw [ih]
    cases x with
    | increment =>
      simp only [countInc, step_increment_eq]
      by_cases h0 : countInc xs = 0
      · simp [h0]
      · simp only [h0, if_false, Nat.add_eq_zero, one_ne_zero, and_false]
        rw [wrapLONG_add_wrap]
        congr 1
        push_cast
        ring
    | wake => simp only [countInc, step_wake_eq]

lemma counterInv_init : CounterInv System.init 0 := by
  simp [CounterInv, System.init, Reporter.init, System.rates, System.reads]

lemma counterInv_increment (s : System) (m : Nat) (h : CounterInv s m)
    (hm : m + 1 < 2147483648) : CounterInv (s.step .increment) (m + 1) := by
  obtain ⟨hg, h0, hp, hsum, hlast, hsorted, hall⟩ := h
  rw [step_increment_eq]
  refine ⟨?_, h0, ?_, hsum, hlast, hsorted, hall⟩
  · simp only [hg]
    rw [wrapLONG_of_range] <;> push_cast <;> omega
  · simp only
    push_cast
    omega

lemma counterInv_wake (s : System) (m : Nat) (h : CounterInv s m)
    (hm : m < 2147483648) : CounterInv (s.step .wake) m := by
  obtain ⟨hg, h0, hp, hsum, hlast, hsorted, hall⟩ := h
  rw [step_wake_eq]
  have hw : wrapLONG (s.g_total_requests - s.reporter.prev_total)
      = s.g_total_requests - s.reporter.prev_total := by
    apply wrapLONG_of_range <;> omega
  simp only [System.rates, System.reads] at hsum hlast hsorted hall
  refine ⟨hg, by simp only; omega, by simp only; omega, ?_, ?_, ?_, ?_⟩
  · simp only [System.rates, List.map_append, List.sum_append, hsum, hw]
    simp
  · simp [System.reads]
  · simp only [System.reads, List.map_append, List.pairwise_append, List.map_cons,
      List.map_nil, List.pairwise_cons, List.mem_singleton]
    refine ⟨hsorted, ⟨by simp, List.Pairwise.nil⟩, ?_⟩
    intro a ha b hb
    rw [hb]
    have := (hall a ha).2
    omega
  · intro t ht
    simp only [System.reads, List.map_append, List.map_cons, List.map_nil, List.mem_append,
      List.mem_singleton] at ht
    rcases ht with ht | ht
    · have := hall t ht
      simp only
      omega
    · simp only [ht]
      omega

lemma counterInv_run (sched : List Step) (s : System) (m : Nat) (h : CounterInv s m)
    (hm : m + countInc sched < 2147483648) :
    CounterInv (s.run sched) (m + countInc sched) := by
  induction sched generalizing s m with
  | nil => simpa [System.run, countInc] using h
  | cons x xs ih =>
    cases x with
    | increment =>
      simp only [countInc] at hm ⊢
      have h1 := counterInv_increment s m h (by omega)
      have h2 := ih (s.step .increment) (m + 1) h1 (by omega)
      have e : m + (countInc xs + 1) = m + 1 + countInc xs := by omega
      rw [e]
      exact h2
    | wake =>
      simp only [countInc] at hm ⊢
      exact ih (s.step .wake) m (counterInv_wake s m h (by omega)) hm

lemma counterInv_of_schedule (sched : List Step) (h : countInc sched < 2147483648) :
    CounterInv (System.init.run sched) (countInc sched) := by
  have := counterInv_run sched System.init 0 counterInv_init (by omega)
  simpa using this

lemma run_wrapping_schedule :
    System.init.run (List.replicate 2147483647 .increment ++ [.wake, .increment, .wake])
      = { g_total_requests := -2147483648,
          reporter := { prev_total := -2147483648,
                        stdout := [(2147483647, 2147483647), (1, -2147483648)] } } := by
  rw [run_append, run_replicate_increment System.init 2147483646]
  decide

/-! ## The reporter: rates, totals and monotonicity -/

/-- C5, as the code has it: on the totals `t_1, ..., t_k` that `reporter_thread` observes on its
successive wake-ups, whenever every difference `t_i - t_(i-1)` is a value of the
32-bit `LONG` (with `t_0 = 0`), the i-th report carries rate `t_i - t_(i-1)` and total
`t_i`, and `prev_total` is `t_i` after the i-th report; the read leaves the counter
unchanged; with 5 requests in the first interval and 7 in the second the reports are
(5, 5) then (7, 12). -/
theorem C5_reports_follow_totals (ts : List Int) (h : diffsRepresentable 0 ts = true) :
    (reporter_thread ts Reporter.init).stdout = specReports 0 ts
    ∧ (∀ i, i < ts.length →
        (reporter_thread ts Reporter.init).stdout[i]?
          = some (ts.getD i 0 - (0 :: ts).getD i 0, ts.getD i 0))
    ∧ (reporter_thread ts Reporter.init).prev_total = ts.getLast?.getD 0
    ∧ (∀ (g : Int) (r : Reporter),
        (reporter_iteration g r).2.prev_total = g ∧ (reporter_iteration g r).1 = g)
    ∧ (System.init.run (List.replicate 5 .increment ++ [.wake]
          ++ List.replicate 7 .increment ++ [.wake])).reporter.stdout
        = [(5, 5), (7, 12)] := by
  obtain ⟨h1, h2⟩ := reporter_thread_spec ts Reporter.init h
  have h1a : (reporter_thread ts Reporter.init).stdout = specReports 0 ts := by
    rw [h1]; simp [Reporter.init]
  refine ⟨h1a, ?_, h2, ?_, by decide⟩
  · intro i hi
    rw [h1a]
    exact specReports_getElem? 0 ts i hi
  · intro g r
    rw [reporter_iteration_eq]
    exact ⟨rfl, rfl⟩

/-- Witness for C5: the totals 5 and 12. -/
theorem C5_reports_follow_totals_witness :
    (reporter_thread [5, 12] Reporter.init).stdout = specReports 0 [5, 12] :=
  (C5_reports_follow_totals [5, 12] (by decide)).1

/-- Counterexample to C5 as stated: the reporter reads 2147483647 and, one increment
later, -2147483648; its second report carries rate 1, not the difference
-4294967295 of the two totals. -/
theorem C5_counterexample_rate_wraps :
    (System.init.run
        (List.replicate 2147483647 .increment ++ [.wake, .increment, .wake])).reads
      = [2147483647, -2147483648]
    ∧ (reporter_thread [2147483647, -2147483648] Reporter.init).stdout
      = [(2147483647, 2147483647), (1, -2147483648)]
    ∧ specReports 0 [2147483647, -2147483648]
      = [(2147483647, 2147483647), (-4294967295, -2147483648)]
    ∧ (reporter_thread [2147483647, -2147483648] Reporter.init).stdout
      ≠ specReports 0 [2147483647, -2147483648] := by
  refine ⟨?_, by decide, by decide, by decide⟩
  rw [run_wrapping_schedule]
  decide

/-- C6, as the code has it: for every interleaving of increments and reporter wake-ups with
fewer than 2^31 increments in which the reporter emits at least one report, the sum
of all reported rates equals the total carried by the last report. -/
theorem C6_rates_sum_to_last_total (sched : List Step)
    (hbound : countInc sched < 2147483648)
    (hk : 1 ≤ (System.init.run sched).reporter.stdout.length) :
    (System.init.run sched).reads.getLast? = some (System.init.run sched).rates.sum := by
  obtain ⟨_, _, _, hsum, hlast, _, _⟩ := counterInv_of_schedule sched hbound
  have hne : (System.init.run sched).reads ≠ [] := by
    intro he
    have hl := congrArg List.length he
    simp only [System.reads, List.length_map, List.length_nil] at hl
    omega
  rw [List.getLast?_eq_getLast _ hne] at hlast ⊢
  simp only [Option.getD_some] at hlast
  rw [hsum, hlast]

/-- Witness for C6: 5 increments, a report, 7 increments, a report. -/
theorem C6_rates_sum_to_last_total_witness :
    (System.init.run [.increment, .increment, .increment, .increment, .increment, .wake,
        .increment, .increment, .increment, .increment, .increment, .increment,
        .increment, .wake]).reads.getLast?
      = some (System.init.run [.increment, .increment, .increment, .increment, .increment,
        .wake, .increment, .increment, .increment, .increment, .increment, .increment,
        .increment, .wake]).rates.sum :=
  C6_rates_sum_to_last_total _ (by decide) (by decide)

/-- Counterexample to C6 as stated: with a report after 2^31 - 1 increments and one
after one more increment, the two rates add up to 2147483648 while the last report
carries the total -2147483648. -/
theorem C6_counterexample_sum_differs :
    (System.init.run
        (List.replicate 2147483647 .increment ++ [.wake, .increment, .wake])).rates
      = [2147483647, 1]
    ∧ (System.init.run
        (List.replicate 2147483647 .increment ++ [.wake, .increment, .wake])).rates.sum
      = 2147483648
    ∧ (System.init.run
        (List.replicate 2147483647 .increment ++ [.wake, .increment, .wake])).reads.getLast?
      = some (-2147483648) := by
  rw [run_wrapping_schedule]
  decide

/-- C7, as the code has it: `g_total_requests` starts at zero; along every interleaving of
atomic increments and reads with fewer than 2^31 increments the counter equals the
number of increments so far, hence is non-negative and never decreases, and
successive reads return non-decreasing values; with or without that bound, a read
returns the current content of the counter, which is never greater than the number of
increments performed so far. -/
theorem C7_counter_monotone (pre suf : List Step) :
    System.init.g_total_requests = 0
    ∧ (countInc (pre ++ suf) < 2147483648 →
        0 ≤ (System.init.run pre).g_total_requests
        ∧ (System.init.run pre).g_total_requests = (countInc pre : Nat)
        ∧ (System.init.run pre).g_total_requests
            ≤ (System.init.run (pre ++ suf)).g_total_requests
        ∧ (System.init.run (pre ++ suf)).reads.Pairwise (fun a b => a ≤ b))
    ∧ (System.init.run (pre ++ [.wake])).reads
        = (System.init.run pre).reads ++ [(System.init.run pre).g_total_requests]
    ∧ (System.init.run (pre ++ [.wake])).g_total_requests
        = (System.init.run pre).g_total_requests
    ∧ (System.init.run pre).g_total_requests ≤ (countInc pre : Nat) := by
  refine ⟨rfl, ?_, ?_, ?_, ?_⟩
  · intro hb
    have hsplit := countInc_append pre suf
    obtain ⟨hg1, _⟩ := counterInv_of_schedule pre (by omega)
    obtain ⟨hg2, _, _, _, _, hsorted, _⟩ := counterInv_of_schedule (pre ++ suf) hb
    refine ⟨?_, hg1, ?_, hsorted⟩
    · rw [hg1]; omega
    · rw [hg1, hg2, hsplit]; push_cast; omega
  · rw [run_append]
    show ((System.init.run pre).step .wake).reads = _
    rw [step_wake_eq]
    simp [System.reads]
  · rw [run_append]
    show ((System.init.run pre).step .wake).g_total_requests = _
    rw [step_wake_eq]
  · rw [run_counter]
    by_cases h0 : countInc pre = 0
    · simp [h0, System.init]
    · simp only [h0, if_false]
      have : System.init.g_total_requests = 0 := rfl
      rw [this, zero_add]
      exact wrapLONG_le _ (by omega)

/-- Witness for C7: an increment and a read, then two increments and a read. -/
theorem C7_counter_monotone_witness :
    (System.init.run [.increment, .wake]).g_total_requests
      ≤ (System.init.run ([.increment, .wake] ++ [.increment, .increment, .wake])).g_total_requests :=
  ((C7_counter_monotone [.increment, .wake] [.increment, .increment, .wake]).2.1
    (by decide)).2.2.1

/-- Counterexample to C7 as stated: the increment after 2^31 - 1 increments takes the
counter from 2147483647 to -2147483648, and the reads before and after it return
2147483647 and then -2147483648. -/
theorem C7_counterexample_counter_decreases :
    (System.init.run (List.replicate 2147483647 .increment)).g_total_requests = 2147483647
    ∧ (System.init.run (List.replicate 2147483648 .increment)).g_total_requests
        = -2147483648
    ∧ (System.init.run
        (List.replicate 2147483647 .increment ++ [.wake, .increment, .wake])).reads
      = [2147483647, -2147483648]
    ∧ ¬ (System.init.run
        (List.replicate 2147483647 .increment ++ [.wake, .increment, .wake])).reads.Pairwise
          (fun a b => a ≤ b) := by
  refine ⟨?_, ?_, ?_, ?_⟩
  · rw [run_replicate_increment System.init 2147483646]
    decide
  · rw [run_replicate_increment System.init 2147483647]
    decide
  · rw [run_wrapping_schedule]
    decide
  · rw [run_wrapping_schedule]
    decide

end TrafficCounter
